import Mathlib

/-!
Verification of the parameter-file heuristics and the linked-template
resolution engine of an ARM-template language tool.

The pure helpers of parameterFiles.ts are translated directly from the
source.  The expression scanner, symbol resolver and linked-template
resolver live outside the available sources (only their functional tests
are present), so those components are modelled from the specification
document; each such definition is marked in its doc comment.
-/

namespace ArmTools

/-- Joins a list of names with a comma and a space, as the aggregated
diagnostic messages do. -/
def joinComma (names : List String) : String :=
  String.intercalate (", ") names

/-- Model of path.basename for slash-separated paths: the last path
segment, ignoring trailing slashes. -/
def basename (p : String) : String :=
  let rev := p.data.reverse.dropWhile (fun c => c == '/')
  String.mk ((rev.takeWhile (fun c => c != '/')).reverse)

/-- Model of path.extname: the suffix of the basename starting at its last
dot, or empty when the basename has no dot or its only dot is the leading
character. -/
def extname (p : String) : String :=
  let b := (basename p).data
  let afterRev := b.reverse.takeWhile (fun c => c != '.')
  if afterRev.length == b.length then ""
  else if afterRev.length + 1 == b.length then ""
  else String.mk ('.' :: afterRev.reverse)

/-- Whether the JavaScript regular-expression dot matches a character: it
matches everything except the four line terminators. -/
def regexDotMatches (c : Char) : Bool :=
  c != '\n' && c != '\r' && c != '\u2028' && c != '\u2029'

/-- Helper for removeAllExtensions: deletes the suffix beginning at the
leftmost dot from which the pattern dot-dot-plus-end matches, exactly as
the replace call in the source does. -/
def removeAllExtensionsAux : List Char → List Char
  | [] => []
  | c :: rest =>
    if c == '.' && !rest.isEmpty && rest.all regexDotMatches then []
    else c :: removeAllExtensionsAux rest

/-- Translation of removeAllExtensions from parameterFiles.ts: replaces
the regular expression match (a dot followed by one or more characters up
to the end) with the empty string. -/
def removeAllExtensions (fileName : String) : String :=
  String.mk (removeAllExtensionsAux fileName.data)

/-- Lowercases a string character by character, as the JavaScript
toLowerCase call does for the ascii file names involved here. -/
def toLowerStr (s : String) : String :=
  String.mk (s.data.map Char.toLower)

/-- Whether the first string starts with the second, computed on the
character lists. -/
def startsWithStr (s pre : String) : Bool :=
  List.isPrefixOf pre.data s.data

/-- Lexicographic comparison of character lists by code point. -/
def charListLt : List Char → List Char → Bool
  | [], [] => false
  | [], _ :: _ => true
  | _ :: _, [] => false
  | a :: as, b :: bs => if a < b then true else if b < a then false else charListLt as bs

/-- Translation of hasSupportedParameterFileExtension from
parameterFiles.ts. -/
def hasSupportedParameterFileExtension (filePath : String) : Bool :=
  let extension := toLowerStr (extname filePath)
  extension == ".json" || extension == ".jsonc"

/-- Translation of mayBeMatchingParameterFile from parameterFiles.ts. -/
def mayBeMatchingParameterFile (templateFileName parameterFileName : String) : Bool :=
  if !hasSupportedParameterFileExtension parameterFileName then false
  else
    let baseTemplateName := toLowerStr (removeAllExtensions (basename templateFileName))
    let baseParamsName := toLowerStr (removeAllExtensions (basename parameterFileName))
    startsWithStr baseParamsName baseTemplateName

/-- Model of path.dirname for slash-separated paths. -/
def dirname (p : String) : String :=
  let cut := p.data.reverse.dropWhile (fun c => c != '/')
  match cut with
  | [] => "."
  | [_] => "/"
  | _ :: rest => String.mk rest.reverse

/-- Model of path.join for the folder-plus-filename case used by the
source. -/
def pathJoin (folder fileName : String) : String :=
  if folder == "" then fileName
  else if folder.data.getLast? == some '/' then folder ++ fileName
  else folder ++ "/" ++ fileName

/-- One step of the sort model: a stable insertion that places the new
element before the first existing element that the comparator puts after
it, and after every element the comparator ties with. -/
def jsSortInsert (cmp : α → α → Int) (x : α) : List α → List α
  | [] => [x]
  | y :: ys => if cmp x y < 0 then x :: y :: ys else y :: jsSortInsert cmp x ys

/-- Model of the JavaScript array sort with a caller-supplied comparator,
as a stable insertion sort.  For a consistent comparator this agrees with
every conforming engine; for the inconsistent comparators appearing in the
source (which ignore their second argument) it reproduces the V8 behavior
of front-inserting every element that compares negative. -/
def jsSort (cmp : α → α → Int) (l : List α) : List α :=
  l.foldl (fun acc x => jsSortInsert cmp x acc) []

/-- The suggestion record of parameterFiles.ts, with the uri represented
by its file-system path. -/
structure IPossibleParameterFile where
  fsPath : String
  friendlyPath : String
  isCloseNameMatch : Bool
  fileNotFound : Bool := false
deriving DecidableEq, Repr

/-- The comparator that considerQueryingForParameterFile passes to sort:
the source hands sort a one-argument arrow function returning the negated
path length, so as a comparator it ignores its second argument. -/
def sortCompareByNegPathLength (pf _other : IPossibleParameterFile) : Int :=
  -(Int.ofNat pf.fsPath.length)

/-- Translation of the closest-match selection inside
considerQueryingForParameterFile: sort the close matches with the
comparator above and take the first element. -/
def closestMatch (closeMatches : List IPossibleParameterFile) : Option IPossibleParameterFile :=
  if 0 < closeMatches.length then (jsSort sortCompareByNegPathLength closeMatches).head?
  else none

/-- A quick-pick entry: the label and the optional suggestion data. -/
structure QuickPickItem where
  label : String
  data : Option IPossibleParameterFile
deriving DecidableEq, Repr

/-- Model of localeCompare. The buggy call site only ever compares a
string with itself, where every collation returns zero, so the collation
chosen here is immaterial. -/
def localeCompare (s t : String) : Int :=
  if charListLt s.data t.data then -1 else if charListLt t.data s.data then 1 else 0

/-- Translation of the comparator inside sortQuickPickList.  Note that the
source initializes both aData and bData from the first item a, so the
filename comparison always receives the same string twice. -/
def sortQuickPickCmp (a b : QuickPickItem) : Int :=
  let aData := a.data
  let bData := a.data
  if (a.data.map (fun d => d.isCloseNameMatch)) != (b.data.map (fun d => d.isCloseNameMatch)) then
    if (a.data.map (fun d => d.isCloseNameMatch)).getD false then -1 else 1
  else
    localeCompare ((aData.map (fun d => d.fsPath)).getD "") ((bData.map (fun d => d.fsPath)).getD "")

/-- Translation of sortQuickPickList from parameterFiles.ts. -/
def sortQuickPickList (pickItems : List QuickPickItem) : List QuickPickItem :=
  jsSort sortQuickPickCmp pickItems

/-- Translation of findSuggestedParameterFiles from parameterFiles.ts:
scan the file names of the folder containing the template, keep the
entries that the content check accepts and that are not the template
itself.  The content check and the friendly-path rendering read the disk
and the workspace in the source, so they enter the model as function
parameters. -/
def findSuggestedParameterFiles (templatePath : String) (folderFileNames : List String)
    (isParameterFile : String → Bool) (friendly : String → String) :
    List IPossibleParameterFile :=
  folderFileNames.filterMap (fun paramFileName =>
    let fullPath := pathJoin (dirname templatePath) paramFileName
    if isParameterFile fullPath && templatePath != fullPath then
      some ⟨fullPath, friendly fullPath, mayBeMatchingParameterFile templatePath fullPath, false⟩
    else none)

/-- A source range inside a document, as start and end offsets. -/
structure SourceRange where
  startOffset : Nat
  endOffset : Nat
deriving DecidableEq, Repr

/-- Diagnostic severity. -/
inductive Severity where
  | error
  | warning
deriving DecidableEq, Repr

/-- The diagnostic categories produced by the parts of the engine under
verification. -/
inductive DiagKind where
  | extraParameters
  | missingParameterValues
  | parameterTypeMismatch
  | linkedTemplateNotFound
deriving DecidableEq, Repr

/-- A positioned diagnostic attached to the document named by docUri. -/
structure Diagnostic where
  severity : Severity
  kind : DiagKind
  message : String
  docUri : String
  range : SourceRange
deriving DecidableEq, Repr

/-- A parameter declared by a child template: its name, its declared type
and whether the declaration carries a default value. -/
structure ParameterDefinition where
  name : String
  declaredType : String
  hasDefaultValue : Bool
deriving DecidableEq, Repr

/-- A parameter value passed by the parent at a linked-template call
site: its name, the type inferred from the passed literal, and the range
of the passed value inside the parent document. -/
structure PassedParameter where
  name : String
  inferredType : String
  range : SourceRange
deriving DecidableEq, Repr

/-- The declared parameter names of a child template, in declaration
order. -/
def declaredParameterNames (decls : List ParameterDefinition) : List String :=
  decls.map (fun d => d.name)

/-- Modelled from the spec: the passed names absent from the child
declarations, in the order the parent passes them. -/
def extraParameterNames (decls : List ParameterDefinition) (passed : List PassedParameter) :
    List String :=
  (passed.map (fun p => p.name)).filter (fun n => !(declaredParameterNames decls).contains n)

/-- Modelled from the spec: the aggregated message for passed names absent
from the child declarations. -/
def extraParametersMessage (extras declared : List String) : String :=
  "template parameters \x27" ++ joinComma extras ++
    "\x27 are not valid; not present in original template; supported parameters are \x27" ++
    joinComma declared ++ "\x27"

/-- Modelled from the spec: the extra-parameter check of the Validating
state, producing one aggregated error on the parent at the call-site
range when at least one passed name is not declared by the child. -/
def extraParametersCheck (parentUri : String) (callRange : SourceRange)
    (decls : List ParameterDefinition) (passed : List PassedParameter) : List Diagnostic :=
  if (extraParameterNames decls passed).isEmpty then []
  else [⟨Severity.error, DiagKind.extraParameters,
         extraParametersMessage (extraParameterNames decls passed)
           (declaredParameterNames decls), parentUri, callRange⟩]

/-- Modelled from the spec: the names of child-declared parameters that
carry no default value and are absent from the passed set, in declaration
order. -/
def missingParameterNames (decls : List ParameterDefinition) (passed : List PassedParameter) :
    List String :=
  (decls.filter (fun d =>
    !d.hasDefaultValue && !(passed.map (fun p => p.name)).contains d.name)).map (fun d => d.name)

/-- Modelled from the spec: the aggregated message for required child
parameters that received no value. -/
def missingValuesMessage (names : List String) : String :=
  "the following parameters do not have values: \"" ++ joinComma names ++ "\""

/-- Modelled from the spec: the missing-value check of the Validating
state, producing one aggregated error when at least one required child
parameter is absent from the passed set. -/
def missingValuesCheck (parentUri : String) (callRange : SourceRange)
    (decls : List ParameterDefinition) (passed : List PassedParameter) : List Diagnostic :=
  if (missingParameterNames decls passed).isEmpty then []
  else [⟨Severity.error, DiagKind.missingParameterValues,
         missingValuesMessage (missingParameterNames decls passed), parentUri, callRange⟩]

/-- Modelled from the spec: the message of a parameter type mismatch. -/
def typeMismatchMessage (declaredType actualType : String) : String :=
  "parameter type mismatch. Expected \x27" ++ declaredType ++ "\x27. Actual \x27" ++
    actualType ++ "\x27"

/-- Modelled from the spec: the diagnostic for one mismatched parameter,
anchored at the range of the passed value inside the parent document. -/
def typeMismatchDiag (parentUri : String) (d : ParameterDefinition) (p : PassedParameter) :
    Diagnostic :=
  ⟨Severity.error, DiagKind.parameterTypeMismatch,
   typeMismatchMessage d.declaredType p.inferredType, parentUri, p.range⟩

/-- Modelled from the spec: the per-parameter type check of the
Validating state; each passed parameter whose inferred type disagrees
with the declared type of the matching child parameter yields its own
error, independently of the others. -/
def typeMismatchCheck (parentUri : String) (decls : List ParameterDefinition)
    (passed : List PassedParameter) : List Diagnostic :=
  passed.filterMap (fun p =>
    match decls.find? (fun d => d.name == p.name) with
    | some d =>
      if d.declaredType != p.inferredType then some (typeMismatchDiag parentUri d p) else none
    | none => none)

/-- Modelled from the spec: the Validating state of the Linked Template
Resolver for one parent-to-child edge, concatenating the three
parameter-contract checks.  All resulting diagnostics are attached to the
parent document, where the values were supplied. -/
def validateParameterContract (parentUri : String) (callRange : SourceRange)
    (decls : List ParameterDefinition) (passed : List PassedParameter) : List Diagnostic :=
  extraParametersCheck parentUri callRange decls passed
    ++ missingValuesCheck parentUri callRange decls passed
    ++ typeMismatchCheck parentUri decls passed

/-- A linked-template reference occurring in a document: its source range
in the referring document, its statically resolved target path (none when
the uri expression cannot be statically resolved), and the parameter set
the parent passes along the edge. -/
structure RefOccurrence where
  range : SourceRange
  target : Option String
  passed : List PassedParameter
deriving DecidableEq, Repr

/-- A template document as the Linked Template Resolver sees it: its
declared parameters and its linked-template references. -/
structure TemplateDoc where
  declaredParameters : List ParameterDefinition
  refs : List RefOccurrence
deriving DecidableEq, Repr

/-- Modelled from the spec: the message emitted when the resolved path of
a linked-template reference does not exist. -/
def linkedTemplateNotFoundMessage (path : String) : String :=
  "Could not find linked template file \"" ++ path ++ "\""

/-- Modelled from the spec: the diagnostic for a missing linked-template
file, anchored on the parent document at the source range of the
reference. -/
def linkedTemplateNotFoundDiag (parentUri : String) (r : SourceRange) (path : String) :
    Diagnostic :=
  ⟨Severity.error, DiagKind.linkedTemplateNotFound,
   linkedTemplateNotFoundMessage path, parentUri, r⟩

/-- Combines the per-reference results of a traversal level by
concatenating the diagnostic lists and the expanded-document lists. -/
def combineResults (l : List (List Diagnostic × List String)) :
    List Diagnostic × List String :=
  l.foldr (fun x acc => (x.1 ++ acc.1, x.2 ++ acc.2)) ([], [])

/-- Modelled from the spec: the traversal of the Linked Template Resolver
over the references of one document.  For each reference: an
unresolvable target is silently excluded; a target missing from the file
system yields one not-found error on the parent and stops that branch
while the remaining references continue; a found child has its
parameter contract validated against the passed set, and its own
references are expanded only when the child has an associated parameter
file of its own.  The fuel argument bounds the expansion depth; the
result is the diagnostic list together with the list of documents whose
references were expanded. -/
def traverseRefs (fs : String → Option TemplateDoc) (hpf : String → Bool) :
    Nat → String → List RefOccurrence → List Diagnostic × List String
  | 0, _, _ => ([], [])
  | fuel + 1, parentUri, refs =>
    combineResults (refs.map (fun ref =>
      match ref.target with
      | none => ([], [])
      | some childPath =>
        match fs childPath with
        | none => ([linkedTemplateNotFoundDiag parentUri ref.range childPath], [])
        | some child =>
          let edgeDiags :=
            validateParameterContract parentUri ref.range child.declaredParameters ref.passed
          if hpf childPath then
            let sub := traverseRefs fs hpf fuel childPath child.refs
            (edgeDiags ++ sub.1, childPath :: sub.2)
          else (edgeDiags, [])))

/-- The per-reference step of the traversal, stated on its own so that the
theorems can decompose a traversal reference by reference.  It is
definitionally the function mapped over the references by traverseRefs at
positive fuel. -/
def handleRef (fs : String → Option TemplateDoc) (hpf : String → Bool) (fuel : Nat)
    (parentUri : String) (ref : RefOccurrence) : List Diagnostic × List String :=
  match ref.target with
  | none => ([], [])
  | some childPath =>
    match fs childPath with
    | none => ([linkedTemplateNotFoundDiag parentUri ref.range childPath], [])
    | some child =>
      let edgeDiags :=
        validateParameterContract parentUri ref.range child.declaredParameters ref.passed
      if hpf childPath then
        let sub := traverseRefs fs hpf fuel childPath child.refs
        (edgeDiags ++ sub.1, childPath :: sub.2)
      else (edgeDiags, [])

/-- Modelled from the spec: a full traversal rooted at an opened document
that has an associated parameter file. -/
def traverse (fs : String → Option TemplateDoc) (hpf : String → Bool) (fuel : Nat)
    (rootUri : String) (doc : TemplateDoc) : List Diagnostic × List String :=
  traverseRefs fs hpf fuel rootUri doc.refs

/-- Modelled from the spec: the token kinds of the Expression Scanner.
The scanner first emits a generic dot for every dot character and a
second pass rewrites each dot standing between an identifier and a call
head into a namespace dot, leaving the others as property dots. -/
inductive Token where
  | exprStart
  | exprEnd
  | identifier (text : String)
  | dot
  | namespaceDot
  | propertyDot
  | stringLit (contents : String)
  | number (text : String)
  | parenOpen
  | parenClose
  | comma
deriving DecidableEq, Repr

/-- Whether a character may continue an identifier. -/
def isIdentChar (c : Char) : Bool :=
  c.isAlphanum || c == '_'

/-- Modelled from the spec: scans a single-quoted string literal after its
opening quote; a doubled quote inside the literal is an escaped quote and
does not terminate it.  Returns the decoded contents and the characters
after the closing quote, or none when the literal is unterminated. -/
def scanStringLit (acc : List Char) : List Char → Option (List Char × List Char)
  | [] => none
  | '\x27' :: '\x27' :: rest => scanStringLit (acc ++ [ '\x27' ]) rest
  | '\x27' :: rest => some (acc, rest)
  | c :: rest => scanStringLit (acc ++ [c]) rest

/-- Modelled from the spec: the token loop of the Expression Scanner over
the characters between the brackets.  Whitespace outside string literals
is discarded; a closing bracket at the end of the value terminates the
expression; any unexpected character or an unterminated literal makes the
whole expression malformed. -/
def scanBody : Nat → List Char → Option (List Token)
  | 0, _ => none
  | _ + 1, [] => none
  | fuel + 1, c :: rest =>
    if c == ']' then
      if rest.isEmpty then some [Token.exprEnd] else none
    else if c.isWhitespace then
      scanBody fuel rest
    else if c == '\x27' then
      match scanStringLit [] rest with
      | some (contents, rest2) =>
        (scanBody fuel rest2).map (fun ts => Token.stringLit (String.mk contents) :: ts)
      | none => none
    else if c.isAlpha || c == '_' then
      let text := String.mk (c :: rest.takeWhile isIdentChar)
      (scanBody fuel (rest.dropWhile isIdentChar)).map (fun ts => Token.identifier text :: ts)
    else if c.isDigit || c == '-' then
      let isNumChar : Char → Bool := fun d => d.isDigit || d == '.'
      let text := String.mk (c :: rest.takeWhile isNumChar)
      (scanBody fuel (rest.dropWhile isNumChar)).map (fun ts => Token.number text :: ts)
    else if c == '(' then
      (scanBody fuel rest).map (fun ts => Token.parenOpen :: ts)
    else if c == ')' then
      (scanBody fuel rest).map (fun ts => Token.parenClose :: ts)
    else if c == ',' then
      (scanBody fuel rest).map (fun ts => Token.comma :: ts)
    else if c == '.' then
      (scanBody fuel rest).map (fun ts => Token.dot :: ts)
    else none

/-- Modelled from the spec: rewrites each generic dot into a namespace
dot when it stands between an identifier and an identifier followed by an
opening parenthesis (a call head), and into a property dot otherwise. -/
def classifyDots : List Token → List Token
  | Token.identifier a :: Token.dot :: Token.identifier b :: Token.parenOpen :: rest =>
    Token.identifier a :: Token.namespaceDot :: Token.identifier b :: Token.parenOpen ::
      classifyDots rest
  | Token.dot :: rest => Token.propertyDot :: classifyDots rest
  | t :: rest => t :: classifyDots rest
  | [] => []

/-- Modelled from the spec: the Expression Scanner.  A value beginning
with a doubled bracket is a literal escape and yields no tokens, a value
not beginning with a bracket is not an expression, and otherwise the body
is tokenized and the dots are classified. -/
def tokenize (s : String) : Option (List Token) :=
  match s.data with
  | '[' :: '[' :: _ => none
  | '[' :: rest =>
    (scanBody (rest.length + 1) rest).map (fun ts => Token.exprStart :: classifyDots ts)
  | _ => none

/-- Modelled from the spec: the expression AST of the Expression
Parser. -/
inductive Expr where
  | stringLiteral (value : String)
  | numberLiteral (text : String)
  | propertyAccess (base : Expr) (property : String)
  | functionCall (nspace : Option String) (name : String) (args : List Expr)

/-- Modelled from the spec: extends a parsed atom with trailing property
accesses. -/
def parseChain (e : Expr) : List Token → Expr × List Token
  | Token.propertyDot :: Token.identifier p :: rest =>
    parseChain (Expr.propertyAccess e p) rest
  | toks => (e, toks)

/-- Modelled from the spec: the recursive-descent core of the Expression
Parser, with one token of lookahead.  In expression mode (the Bool
argument false) it parses one expression as a singleton list: a literal
or an optionally namespace-qualified function call, followed by a
property chain.  In argument mode (true) it parses the comma-separated
argument list of a call up to and including the closing parenthesis. -/
def parseEngine : Nat → Bool → List Token → Option (List Expr × List Token)
  | 0, _, _ => none
  | fuel + 1, false, toks =>
    let atom : Option (Expr × List Token) :=
      match toks with
      | Token.stringLit s :: rest => some (Expr.stringLiteral s, rest)
      | Token.number n :: rest => some (Expr.numberLiteral n, rest)
      | Token.identifier a :: Token.namespaceDot :: Token.identifier b :: Token.parenOpen ::
          rest =>
        match parseEngine fuel true rest with
        | some (args, rest2) => some (Expr.functionCall (some a) b args, rest2)
        | none => none
      | Token.identifier a :: Token.parenOpen :: rest =>
        match parseEngine fuel true rest with
        | some (args, rest2) => some (Expr.functionCall none a args, rest2)
        | none => none
      | _ => none
    match atom with
    | some (e, rest) =>
      match parseChain e rest with
      | (e2, rest2) => some ([e2], rest2)
    | none => none
  | fuel + 1, true, toks =>
    match toks with
    | Token.parenClose :: rest => some ([], rest)
    | _ =>
      match parseEngine fuel false toks with
      | some ([e], Token.comma :: rest) =>
        match parseEngine fuel true rest with
        | some (es, rest2) => some (e :: es, rest2)
        | none => none
      | some ([e], Token.parenClose :: rest) => some ([e], rest)
      | _ => none

/-- Modelled from the spec: tokenizes and parses one bracketed
expression string, requiring the parsed expression to consume every token
up to the closing bracket. -/
def parseExpression (s : String) : Option Expr :=
  match tokenize s with
  | some (Token.exprStart :: body) =>
    match parseEngine (2 * body.length + 2) false body with
    | some ([e], [Token.exprEnd]) => some e
    | _ => none
  | _ => none

/-- Modelled from the spec: the declarations visible to the Symbol
Resolver in one document scope. -/
structure Scope where
  parameterNames : List String := []
  variableNames : List String := []
  userFunctions : List (String × String) := []
deriving DecidableEq, Repr

/-- Modelled from the spec: the classification outcomes of the Symbol
Resolver for a function call. -/
inductive Classification where
  | builtin (name : String)
  | userDefined (nspace : String) (member : String)
  | undefinedUserFunction (nspace : String) (member : String)
  | unknown (name : String)
deriving DecidableEq, Repr

/-- Modelled from the spec: the Symbol Resolver classification of a call
head.  A namespaced call is looked up only among the declared user
functions of the scope, independently of the builtin name set; an
unqualified call is a builtin exactly when its name is in the builtin
set, and unknown otherwise. -/
def classifyCall (builtins : List String) (scope : Scope) :
    Option String → String → Classification
  | some n, name =>
    if scope.userFunctions.contains (n, name) then Classification.userDefined n name
    else Classification.undefinedUserFunction n name
  | none, name =>
    if builtins.contains name then Classification.builtin name
    else Classification.unknown name

/-- C9: mayBeMatchingParameterFile holds exactly when the parameter file
extension, lowercased, is .json or .jsonc, and the parameter file base
name with all extensions removed, lowercased, starts with the template
file base name with all extensions removed, lowercased. -/
theorem c9_mayBeMatchingParameterFile_iff (templateFileName parameterFileName : String) :
    mayBeMatchingParameterFile templateFileName parameterFileName = true
      ↔ ((toLowerStr (extname parameterFileName) = ".json"
            ∨ toLowerStr (extname parameterFileName) = ".jsonc")
        ∧ startsWithStr (toLowerStr (removeAllExtensions (basename parameterFileName)))
            (toLowerStr (removeAllExtensions (basename templateFileName))) = true) := by
  unfold mayBeMatchingParameterFile
  cases hb : hasSupportedParameterFileExtension parameterFileName with
  | false =>
    have hnor : ¬ (toLowerStr (extname parameterFileName) = ".json"
        ∨ toLowerStr (extname parameterFileName) = ".jsonc") := by
      intro hor
      have ht : hasSupportedParameterFileExtension parameterFileName = true := by
        unfold hasSupportedParameterFileExtension
        rcases hor with h | h <;> simp [h]
      rw [ht] at hb
      exact Bool.noConfusion hb
    simp [hnor]
  | true =>
    have hor : toLowerStr (extname parameterFileName) = ".json"
        ∨ toLowerStr (extname parameterFileName) = ".jsonc" := by
      unfold hasSupportedParameterFileExtension at hb
      simpa using hb
    simp [hor]

/-- C10: the suggestion list of findSuggestedParameterFiles never
contains an entry whose file-system path equals the path of the template
itself, whatever the folder listing and the content check accept. -/
theorem c10_no_self_suggestion (templatePath : String) (folderFileNames : List String)
    (isParameterFile : String → Bool) (friendly : String → String) :
    ∀ e ∈ findSuggestedParameterFiles templatePath folderFileNames isParameterFile friendly,
      e.fsPath ≠ templatePath := by
  intro e he
  simp only [findSuggestedParameterFiles, List.mem_filterMap] at he
  obtain ⟨pname, hmem, hcond⟩ := he
  split at hcond
  · rename_i hc
    have hne : templatePath ≠ pathJoin (dirname templatePath) pname := by
      have hb := (Bool.and_eq_true _ _).mp hc
      simpa using hb.2
    cases hcond
    exact Ne.symm hne
  · exact Option.noConfusion hcond

/-- Concrete input for the C10 witness: a template beside one candidate
parameter file. -/
def c10entry : IPossibleParameterFile :=
  ⟨"/t/a.parameters.json", "/t/a.parameters.json", true, false⟩

/-- Witness for C10 at a concrete folder listing. -/
theorem c10_no_self_suggestion_witness :
    c10entry ∈ findSuggestedParameterFiles ("/t/a.json") ["a.parameters.json"]
        (fun _ => true) (fun p => p)
    ∧ c10entry.fsPath ≠ "/t/a.json" :=
  ⟨by decide,
   c10_no_self_suggestion ("/t/a.json") ["a.parameters.json"] (fun _ => true) (fun p => p)
     c10entry (by decide)⟩

/-- Concrete close-match list for C7, in directory order with the
shortest path first. -/
def c7closeMatches : List IPossibleParameterFile :=
  [⟨"/t/a.params.json", "a.params.json", true, false⟩,
   ⟨"/t/a.params.backup.json", "a.params.backup.json", true, false⟩]

/-- C7: counterexample evidence.  The closest-match selection of
considerQueryingForParameterFile passes a one-argument function to the
array sort, so the comparator ignores its second argument and is always
negative; the sort therefore reverses the list instead of ordering it by
path length, and the selection returns the longer of two close matches,
contradicting the shortest-path heuristic the surrounding code comment
states. -/
theorem c7_closestMatch_not_shortest :
    closestMatch c7closeMatches
        = some ⟨"/t/a.params.backup.json", "a.params.backup.json", true, false⟩
    ∧ "/t/a.params.json".length < "/t/a.params.backup.json".length
    ∧ closestMatch c7closeMatches ≠ some ⟨"/t/a.params.json", "a.params.json", true, false⟩ :=
  ⟨rfl, by decide, by decide⟩

/-- Concrete quick-pick list for C8: two non-close items whose paths are
in reverse lexical order. -/
def c8items : List QuickPickItem :=
  [⟨"b", some ⟨"/t/b.parameters.json", "b.parameters.json", false, false⟩⟩,
   ⟨"a", some ⟨"/t/a.parameters.json", "a.parameters.json", false, false⟩⟩]

/-- C8: counterexample evidence.  The filename fallback of
sortQuickPickList reads both of its operands from the first item (the
source assigns a.data to both aData and bData), so the comparator returns
zero on every pair with equal close-match status and the sort leaves two
same-status items in their original order even when that order is not
lexical. -/
theorem c8_sortQuickPickList_not_lexical :
    sortQuickPickList c8items = c8items
    ∧ charListLt "/t/a.parameters.json".data "/t/b.parameters.json".data = true
    ∧ sortQuickPickList c8items
        ≠ [⟨"a", some ⟨"/t/a.parameters.json", "a.parameters.json", false, false⟩⟩,
           ⟨"b", some ⟨"/t/b.parameters.json", "b.parameters.json", false, false⟩⟩] :=
  ⟨rfl, by decide, by decide⟩

/-- C6: on the input string the scanner produces the user namespace
identifier, the namespace dot and the user function identifier; the
parser produces a function call with namespace my and member parameters;
the resolver classifies it as a user-defined call, the classification
does not depend on the builtin name set, and it is never the builtin
classification, even though the builtin set contains the name
parameters. -/
theorem c6_namespaced_call_classification :
    tokenize ("[my.parameters(\x27c\x27)]")
      = some [Token.exprStart, Token.identifier "my", Token.namespaceDot,
              Token.identifier "parameters", Token.parenOpen, Token.stringLit "c",
              Token.parenClose, Token.exprEnd]
    ∧ parseExpression ("[my.parameters(\x27c\x27)]")
      = some (Expr.functionCall (some "my") "parameters" [Expr.stringLiteral "c"])
    ∧ classifyCall ["parameters", "variables", "max"] ⟨[], [], [("my", "parameters")]⟩
        (some "my") "parameters" = Classification.userDefined "my" "parameters"
    ∧ (∀ builtins : List String,
        classifyCall builtins ⟨[], [], [("my", "parameters")]⟩ (some "my") "parameters"
          = Classification.userDefined "my" "parameters")
    ∧ (∀ b : String,
        Classification.userDefined "my" "parameters" ≠ Classification.builtin b) :=
  ⟨rfl, rfl, rfl, fun _ => rfl, fun _ h => Classification.noConfusion h⟩

/-- Every diagnostic produced by the per-parameter type check has the
type-mismatch kind, is attached to the parent document, and carries the
range of its passed value. -/
theorem mem_typeMismatchCheck (parentUri : String) (decls : List ParameterDefinition)
    (passed : List PassedParameter) (d : Diagnostic)
    (hd : d ∈ typeMismatchCheck parentUri decls passed) :
    d.kind = DiagKind.parameterTypeMismatch ∧ d.docUri = parentUri := by
  simp only [typeMismatchCheck, List.mem_filterMap] at hd
  obtain ⟨p, hp, heq⟩ := hd
  split at heq
  · split at heq
    · cases heq
      exact ⟨rfl, rfl⟩
    · exact Option.noConfusion heq
  · exact Option.noConfusion heq

/-- The extra-parameter check emits nothing when every passed name is
declared and otherwise exactly the aggregated diagnostic. -/
theorem extraParametersCheck_of_ne_nil (parentUri : String) (callRange : SourceRange)
    (decls : List ParameterDefinition) (passed : List PassedParameter)
    (h : extraParameterNames decls passed ≠ []) :
    extraParametersCheck parentUri callRange decls passed
      = [⟨Severity.error, DiagKind.extraParameters,
          extraParametersMessage (extraParameterNames decls passed)
            (declaredParameterNames decls), parentUri, callRange⟩] := by
  unfold extraParametersCheck
  rw [if_neg]
  simpa [List.isEmpty_iff] using h

/-- The missing-value check emits nothing when no required parameter is
missing and otherwise exactly the aggregated diagnostic. -/
theorem missingValuesCheck_of_ne_nil (parentUri : String) (callRange : SourceRange)
    (decls : List ParameterDefinition) (passed : List PassedParameter)
    (h : missingParameterNames decls passed ≠ []) :
    missingValuesCheck parentUri callRange decls passed
      = [⟨Severity.error, DiagKind.missingParameterValues,
          missingValuesMessage (missingParameterNames decls passed), parentUri, callRange⟩] := by
  unfold missingValuesCheck
  rw [if_neg]
  simpa [List.isEmpty_iff] using h

/-- The missing-value filter of the type check is empty. -/
theorem typeMismatchCheck_filter_ne (parentUri : String) (decls : List ParameterDefinition)
    (passed : List PassedParameter) (k : DiagKind) (hk : k ≠ DiagKind.parameterTypeMismatch) :
    (typeMismatchCheck parentUri decls passed).filter (fun d => d.kind == k) = [] := by
  rw [List.filter_eq_nil_iff]
  intro d hd
  have := (mem_typeMismatchCheck parentUri decls passed d hd).1
  simp [this, Ne.symm hk]

/-- The extra-parameter filter of the missing-value check is empty. -/
theorem missingValuesCheck_filter_extra (parentUri : String) (callRange : SourceRange)
    (decls : List ParameterDefinition) (passed : List PassedParameter) :
    (missingValuesCheck parentUri callRange decls passed).filter
      (fun d => d.kind == DiagKind.extraParameters) = [] := by
  unfold missingValuesCheck
  split
  · rfl
  · rfl

/-- The missing-value filter of the extra-parameter check is empty. -/
theorem extraParametersCheck_filter_missing (parentUri : String) (callRange : SourceRange)
    (decls : List ParameterDefinition) (passed : List PassedParameter) :
    (extraParametersCheck parentUri callRange decls passed).filter
      (fun d => d.kind == DiagKind.missingParameterValues) = [] := by
  unfold extraParametersCheck
  split
  · rfl
  · rfl

/-- C1: when the parent passes at least one name the child does not
declare, the whole validation of the edge contains exactly one diagnostic
of the extra-parameter kind, and it is the error that joins all extra
names with commas in passing order and lists the declared names of the
child as the supported parameters, attached to the parent at the
call-site range. -/
theorem c1_extra_parameters_aggregated (parentUri : String) (callRange : SourceRange)
    (decls : List ParameterDefinition) (passed : List PassedParameter)
    (h : extraParameterNames decls passed ≠ []) :
    (validateParameterContract parentUri callRange decls passed).filter
        (fun d => d.kind == DiagKind.extraParameters)
      = [⟨Severity.error, DiagKind.extraParameters,
          extraParametersMessage (extraParameterNames decls passed)
            (declaredParameterNames decls), parentUri, callRange⟩] := by
  unfold validateParameterContract
  rw [List.filter_append, List.filter_append,
    extraParametersCheck_of_ne_nil parentUri callRange decls passed h,
    missingValuesCheck_filter_extra, typeMismatchCheck_filter_ne _ _ _ _ (by simp)]
  rfl

/-- Concrete declarations for the C1 witness, matching the scenario of
the spec. -/
def c1decls : List ParameterDefinition :=
  [⟨"intParam", "int", false⟩, ⟨"stringParam", "string", false⟩]

/-- Concrete passed set for the C1 witness: one extra name plus one
declared name. -/
def c1passed : List PassedParameter :=
  [⟨"extraParam", "string", ⟨10, 20⟩⟩, ⟨"intParam", "int", ⟨21, 25⟩⟩]

/-- Witness for C1 at the concrete scenario input. -/
theorem c1_extra_parameters_aggregated_witness :
    extraParameterNames c1decls c1passed ≠ []
    ∧ (validateParameterContract "parent.json" ⟨5, 9⟩ c1decls c1passed).filter
        (fun d => d.kind == DiagKind.extraParameters)
      = [⟨Severity.error, DiagKind.extraParameters,
          extraParametersMessage (extraParameterNames c1decls c1passed)
            (declaredParameterNames c1decls), "parent.json", ⟨5, 9⟩⟩] :=
  ⟨by decide, c1_extra_parameters_aggregated "parent.json" ⟨5, 9⟩ c1decls c1passed (by decide)⟩

/-- C2: when at least one required child parameter is absent from the
passed set, the whole validation of the edge contains exactly one
diagnostic of the missing-value kind, carrying the message that joins all
such names, and no parameter that is passed or has a default appears
among the missing names. -/
theorem c2_missing_parameter_values (parentUri : String) (callRange : SourceRange)
    (decls : List ParameterDefinition) (passed : List PassedParameter)
    (hnodup : (declaredParameterNames decls).Nodup)
    (h : missingParameterNames decls passed ≠ []) :
    ((validateParameterContract parentUri callRange decls passed).filter
        (fun d => d.kind == DiagKind.missingParameterValues)
      = [⟨Severity.error, DiagKind.missingParameterValues,
          missingValuesMessage (missingParameterNames decls passed), parentUri, callRange⟩])
    ∧ ∀ d ∈ decls,
        ((passed.map (fun p => p.name)).contains d.name = true ∨ d.hasDefaultValue = true) →
        d.name ∉ missingParameterNames decls passed := by
  constructor
  · unfold validateParameterContract
    rw [List.filter_append, List.filter_append,
      extraParametersCheck_filter_missing,
      missingValuesCheck_of_ne_nil parentUri callRange decls passed h,
      typeMismatchCheck_filter_ne _ _ _ _ (by simp)]
    rfl
  · intro d hd hcond hmem
    simp only [missingParameterNames, List.mem_map] at hmem
    obtain ⟨d2, hd2, hname⟩ := hmem
    rw [List.mem_filter] at hd2
    obtain ⟨hd2decls, hd2cond⟩ := hd2
    have hinj := List.inj_on_of_nodup_map (f := fun d : ParameterDefinition => d.name) hnodup
    have hdd : d2 = d := hinj hd2decls hd hname
    subst hdd
    simp only [Bool.and_eq_true, Bool.not_eq_true'] at hd2cond
    rcases hcond with hpassed | hdefault
    · rw [hd2cond.2] at hpassed
      exact Bool.noConfusion hpassed
    · rw [hd2cond.1] at hdefault
      exact Bool.noConfusion hdefault

/-- Concrete declarations for the C2 witness: two required parameters
without defaults. -/
def c2decls : List ParameterDefinition :=
  [⟨"intParam", "int", false⟩, ⟨"stringParam", "string", false⟩]

/-- Concrete passed set for the C2 witness: only stringParam receives a
value. -/
def c2passed : List PassedParameter :=
  [⟨"stringParam", "string", ⟨30, 33⟩⟩]

/-- Witness for C2 at the concrete scenario input: intParam is reported,
stringParam is not. -/
theorem c2_missing_parameter_values_witness :
    (declaredParameterNames c2decls).Nodup
    ∧ missingParameterNames c2decls c2passed ≠ []
    ∧ ((validateParameterContract "parent.json" ⟨6, 7⟩ c2decls c2passed).filter
        (fun d => d.kind == DiagKind.missingParameterValues)
      = [⟨Severity.error, DiagKind.missingParameterValues,
          missingValuesMessage (missingParameterNames c2decls c2passed), "parent.json", ⟨6, 7⟩⟩])
    ∧ (⟨"stringParam", "string", false⟩ : ParameterDefinition).name
        ∉ missingParameterNames c2decls c2passed := by
  have h := c2_missing_parameter_values "parent.json" ⟨6, 7⟩ c2decls c2passed (by decide)
    (by decide)
  exact ⟨by decide, by decide, h.1,
    h.2 ⟨"stringParam", "string", false⟩ (by decide) (Or.inl (by decide))⟩

/-- C3: during validation of an edge the diagnostics of the
type-mismatch kind are exactly those of the per-parameter check, and
every passed parameter whose inferred type disagrees with the declared
type of the child parameter found for its name contributes its own
diagnostic, anchored at the range of the passed value and attached to
the parent document. -/
theorem c3_type_mismatch_per_parameter (parentUri : String) (callRange : SourceRange)
    (decls : List ParameterDefinition) (passed : List PassedParameter) :
    ((validateParameterContract parentUri callRange decls passed).filter
        (fun d => d.kind == DiagKind.parameterTypeMismatch)
      = typeMismatchCheck parentUri decls passed)
    ∧ ∀ p ∈ passed, ∀ d : ParameterDefinition,
        decls.find? (fun x => x.name == p.name) = some d →
        d.declaredType ≠ p.inferredType →
        typeMismatchDiag parentUri d p
            ∈ validateParameterContract parentUri callRange decls passed
          ∧ (typeMismatchDiag parentUri d p).docUri = parentUri
          ∧ (typeMismatchDiag parentUri d p).range = p.range := by
  constructor
  · unfold validateParameterContract
    rw [List.filter_append, List.filter_append]
    have hA : (extraParametersCheck parentUri callRange decls passed).filter
        (fun d => d.kind == DiagKind.parameterTypeMismatch) = [] := by
      unfold extraParametersCheck
      split
      · rfl
      · rfl
    have hB : (missingValuesCheck parentUri callRange decls passed).filter
        (fun d => d.kind == DiagKind.parameterTypeMismatch) = [] := by
      unfold missingValuesCheck
      split
      · rfl
      · rfl
    have hC : (typeMismatchCheck parentUri decls passed).filter
        (fun d => d.kind == DiagKind.parameterTypeMismatch)
        = typeMismatchCheck parentUri decls passed := by
      rw [List.filter_eq_self]
      intro d hd
      have := (mem_typeMismatchCheck parentUri decls passed d hd).1
      simp [this]
    rw [hA, hB, hC]
    rfl
  · intro p hp d hfind hty
    refine ⟨?_, rfl, rfl⟩
    unfold validateParameterContract
    refine List.mem_append_right _ ?_
    simp only [typeMismatchCheck, List.mem_filterMap]
    refine ⟨p, hp, ?_⟩
    rw [hfind]
    have hbne : (d.declaredType != p.inferredType) = true := by simpa using hty
    simp [hbne]

/-- Concrete declarations for the C3 witness. -/
def c3decls : List ParameterDefinition :=
  [⟨"intParam", "int", false⟩, ⟨"stringParam", "string", false⟩]

/-- Concrete passed set for the C3 witness: both passed values have the
wrong inferred type. -/
def c3passed : List PassedParameter :=
  [⟨"intParam", "string", ⟨40, 44⟩⟩, ⟨"stringParam", "int", ⟨45, 49⟩⟩]

/-- Witness for C3 at the concrete input: the first mismatched passed
parameter yields its diagnostic inside the edge validation, anchored at
its own range on the parent. -/
theorem c3_type_mismatch_per_parameter_witness :
    typeMismatchDiag "parent.json" ⟨"intParam", "int", false⟩ ⟨"intParam", "string", ⟨40, 44⟩⟩
        ∈ validateParameterContract "parent.json" ⟨1, 2⟩ c3decls c3passed
    ∧ (typeMismatchDiag "parent.json" ⟨"intParam", "int", false⟩
        ⟨"intParam", "string", ⟨40, 44⟩⟩).docUri = "parent.json"
    ∧ (typeMismatchDiag "parent.json" ⟨"intParam", "int", false⟩
        ⟨"intParam", "string", ⟨40, 44⟩⟩).range = SourceRange.mk 40 44 :=
  (c3_type_mismatch_per_parameter "parent.json" ⟨1, 2⟩ c3decls c3passed).2
    ⟨"intParam", "string", ⟨40, 44⟩⟩ (by decide) ⟨"intParam", "int", false⟩
    (by decide) (by decide)

/-- At positive fuel the traversal combines the per-reference results. -/
theorem traverseRefs_succ (fs : String → Option TemplateDoc) (hpf : String → Bool)
    (fuel : Nat) (u : String) (refs : List RefOccurrence) :
    traverseRefs fs hpf (fuel + 1) u refs
      = combineResults (refs.map (handleRef fs hpf fuel u)) := rfl

/-- Unfolding of the combination on a cons cell. -/
theorem combineResults_cons (x : List Diagnostic × List String)
    (xs : List (List Diagnostic × List String)) :
    combineResults (x :: xs)
      = (x.1 ++ (combineResults xs).1, x.2 ++ (combineResults xs).2) := rfl

/-- The combination distributes over list concatenation. -/
theorem combineResults_append (l1 l2 : List (List Diagnostic × List String)) :
    combineResults (l1 ++ l2)
      = ((combineResults l1).1 ++ (combineResults l2).1,
         (combineResults l1).2 ++ (combineResults l2).2) := by
  induction l1 with
  | nil => simp [combineResults]
  | cons x xs ih => simp [combineResults_cons, ih]

/-- Membership in the diagnostics of a combination comes from one of the
combined results. -/
theorem mem_combineResults_fst (l : List (List Diagnostic × List String)) (d : Diagnostic) :
    d ∈ (combineResults l).1 ↔ ∃ x ∈ l, d ∈ x.1 := by
  induction l with
  | nil => simp [combineResults]
  | cons x xs ih => simp [combineResults_cons, ih]

/-- Membership in the expanded documents of a combination comes from one
of the combined results. -/
theorem mem_combineResults_snd (l : List (List Diagnostic × List String)) (q : String) :
    q ∈ (combineResults l).2 ↔ ∃ x ∈ l, q ∈ x.2 := by
  induction l with
  | nil => simp [combineResults]
  | cons x xs ih => simp [combineResults_cons, ih]

/-- Every diagnostic of one edge validation is attached to the parent
document. -/
theorem validateParameterContract_docUri (parentUri : String) (callRange : SourceRange)
    (decls : List ParameterDefinition) (passed : List PassedParameter) :
    ∀ d ∈ validateParameterContract parentUri callRange decls passed,
      d.docUri = parentUri := by
  intro d hd
  unfold validateParameterContract at hd
  rcases List.mem_append.mp hd with h1 | h2
  · rcases List.mem_append.mp h1 with ha | hb
    · unfold extraParametersCheck at ha
      split at ha
      · exact absurd ha (List.not_mem_nil d)
      · rw [List.mem_singleton] at ha
        rw [ha]
    · unfold missingValuesCheck at hb
      split at hb
      · exact absurd hb (List.not_mem_nil d)
      · rw [List.mem_singleton] at hb
        rw [hb]
  · exact (mem_typeMismatchCheck parentUri decls passed d h2).2

/-- A reference with an unresolvable target contributes nothing. -/
theorem handleRef_target_none (fs : String → Option TemplateDoc) (hpf : String → Bool)
    (fuel : Nat) (u : String) (ref : RefOccurrence) (h : ref.target = none) :
    handleRef fs hpf fuel u ref = ([], []) := by
  simp [handleRef, h]

/-- A reference whose target is missing from the file system contributes
exactly the not-found diagnostic on the parent, and expands nothing. -/
theorem handleRef_not_found (fs : String → Option TemplateDoc) (hpf : String → Bool)
    (fuel : Nat) (u : String) (ref : RefOccurrence) (cp : String)
    (h1 : ref.target = some cp) (h2 : fs cp = none) :
    handleRef fs hpf fuel u ref = ([linkedTemplateNotFoundDiag u ref.range cp], []) := by
  simp [handleRef, h1, h2]

/-- A found child without its own parameter file contributes only the
edge validation and expands nothing. -/
theorem handleRef_no_param_file (fs : String → Option TemplateDoc) (hpf : String → Bool)
    (fuel : Nat) (u : String) (ref : RefOccurrence) (cp : String) (child : TemplateDoc)
    (h1 : ref.target = some cp) (h2 : fs cp = some child) (h3 : hpf cp = false) :
    handleRef fs hpf fuel u ref
      = (validateParameterContract u ref.range child.declaredParameters ref.passed, []) := by
  simp [handleRef, h1, h2, h3]

/-- A found child with its own parameter file contributes the edge
validation plus the traversal of its references, and is recorded as
expanded. -/
theorem handleRef_expand (fs : String → Option TemplateDoc) (hpf : String → Bool)
    (fuel : Nat) (u : String) (ref : RefOccurrence) (cp : String) (child : TemplateDoc)
    (h1 : ref.target = some cp) (h2 : fs cp = some child) (h3 : hpf cp = true) :
    handleRef fs hpf fuel u ref
      = (validateParameterContract u ref.range child.declaredParameters ref.passed
           ++ (traverseRefs fs hpf fuel cp child.refs).1,
         cp :: (traverseRefs fs hpf fuel cp child.refs).2) := by
  simp [handleRef, h1, h2, h3]

/-- Every diagnostic of one reference step is attached either to the
referring document or to a document present in the file system. -/
theorem handleRef_mem_docUri (fs : String → Option TemplateDoc) (hpf : String → Bool)
    (fuel : Nat) (u : String) (ref : RefOccurrence) (d : Diagnostic)
    (hd : d ∈ (handleRef fs hpf fuel u ref).1)
    (hrec : ∀ u2 refs2 d2, d2 ∈ (traverseRefs fs hpf fuel u2 refs2).1 →
      d2.docUri = u2 ∨ ∃ c, fs d2.docUri = some c) :
    d.docUri = u ∨ ∃ c, fs d.docUri = some c := by
  cases htarget : ref.target with
  | none =>
    rw [handleRef_target_none fs hpf fuel u ref htarget] at hd
    exact absurd hd (List.not_mem_nil d)
  | some cp =>
    cases hfs : fs cp with
    | none =>
      rw [handleRef_not_found fs hpf fuel u ref cp htarget hfs] at hd
      rw [List.mem_singleton] at hd
      rw [hd]
      exact Or.inl rfl
    | some child =>
      cases hp : hpf cp with
      | false =>
        rw [handleRef_no_param_file fs hpf fuel u ref cp child htarget hfs hp] at hd
        exact Or.inl (validateParameterContract_docUri u ref.range _ _ d hd)
      | true =>
        rw [handleRef_expand fs hpf fuel u ref cp child htarget hfs hp] at hd
        rcases List.mem_append.mp hd with hedge | hsub
        · exact Or.inl (validateParameterContract_docUri u ref.range _ _ d hedge)
        · rcases hrec cp child.refs d hsub with hcp | hex
          · refine Or.inr ⟨child, ?_⟩
            rw [hcp]
            exact hfs
          · exact Or.inr hex

/-- Every diagnostic of a traversal is attached either to the root
document of the traversal or to a document present in the file system. -/
theorem traverseRefs_mem_docUri (fs : String → Option TemplateDoc) (hpf : String → Bool) :
    ∀ fuel u refs d, d ∈ (traverseRefs fs hpf fuel u refs).1 →
      d.docUri = u ∨ ∃ c, fs d.docUri = some c := by
  intro fuel
  induction fuel with
  | zero =>
    intro u refs d hd
    exact absurd hd (List.not_mem_nil d)
  | succ n ih =>
    intro u refs d hd
    rw [traverseRefs_succ, mem_combineResults_fst] at hd
    obtain ⟨x, hx, hdx⟩ := hd
    rw [List.mem_map] at hx
    obtain ⟨ref, href, hxeq⟩ := hx
    subst hxeq
    exact handleRef_mem_docUri fs hpf n u ref d hdx ih

/-- Every document recorded as expanded by a traversal has an associated
parameter file. -/
theorem traverseRefs_mem_expanded (fs : String → Option TemplateDoc) (hpf : String → Bool) :
    ∀ fuel u refs q, q ∈ (traverseRefs fs hpf fuel u refs).2 → hpf q = true := by
  intro fuel
  induction fuel with
  | zero =>
    intro u refs q hq
    exact absurd hq (List.not_mem_nil q)
  | succ n ih =>
    intro u refs q hq
    rw [traverseRefs_succ, mem_combineResults_snd] at hq
    obtain ⟨x, hx, hqx⟩ := hq
    rw [List.mem_map] at hx
    obtain ⟨ref, href, hxeq⟩ := hx
    subst hxeq
    cases htarget : ref.target with
    | none =>
      rw [handleRef_target_none fs hpf n u ref htarget] at hqx
      exact absurd hqx (List.not_mem_nil q)
    | some cp =>
      cases hfs : fs cp with
      | none =>
        rw [handleRef_not_found fs hpf n u ref cp htarget hfs] at hqx
        exact absurd hqx (List.not_mem_nil q)
      | some child =>
        cases hp : hpf cp with
        | false =>
          rw [handleRef_no_param_file fs hpf n u ref cp child htarget hfs hp] at hqx
          exact absurd hqx (List.not_mem_nil q)
        | true =>
          rw [handleRef_expand fs hpf n u ref cp child htarget hfs hp] at hqx
          rcases List.mem_cons.mp hqx with heq | htail
          · rw [heq]
            exact hp
          · exact ih cp child.refs q htail

/-- A reference to a found child with its own parameter file is always
expanded at positive fuel. -/
theorem traverseRefs_expands (fs : String → Option TemplateDoc) (hpf : String → Bool)
    (fuel : Nat) (u : String) :
    ∀ refs (r : SourceRange) (cp : String) (passed : List PassedParameter)
      (child : TemplateDoc),
      (⟨r, some cp, passed⟩ : RefOccurrence) ∈ refs →
      fs cp = some child → hpf cp = true →
      cp ∈ (traverseRefs fs hpf (fuel + 1) u refs).2 := by
  intro refs
  induction refs with
  | nil =>
    intro r cp passed child hmem _ _
    exact absurd hmem (List.not_mem_nil _)
  | cons q rest ih =>
    intro r cp passed child hmem hfs hp
    rw [traverseRefs_succ, List.map_cons, combineResults_cons]
    rcases List.mem_cons.mp hmem with heq | htail
    · subst heq
      refine List.mem_append_left _ ?_
      rw [handleRef_expand fs hpf fuel u _ cp child rfl hfs hp]
      exact List.mem_cons_self _ _
    · exact List.mem_append_right _ (ih r cp passed child htail hfs hp)

/-- C4: a linked-template reference whose resolved path is missing from
the file system contributes exactly one not-found error, anchored on the
parent at the reference range and carrying the message that quotes the
path, while the remaining references continue to contribute their own
results unchanged; and no diagnostic of the whole traversal is attached
to the missing document. -/
theorem c4_linked_template_not_found (fs : String → Option TemplateDoc) (hpf : String → Bool)
    (fuel : Nat) (parentUri : String) (doc : TemplateDoc) (pre post : List RefOccurrence)
    (r : SourceRange) (missingPath : String) (passed : List PassedParameter)
    (hrefs : doc.refs = pre ++ (⟨r, some missingPath, passed⟩ : RefOccurrence) :: post)
    (hfs : fs missingPath = none) (hroot : parentUri ≠ missingPath) :
    ((traverse fs hpf (fuel + 1) parentUri doc).1
      = (traverseRefs fs hpf (fuel + 1) parentUri pre).1
        ++ linkedTemplateNotFoundDiag parentUri r missingPath
            :: (traverseRefs fs hpf (fuel + 1) parentUri post).1)
    ∧ linkedTemplateNotFoundDiag parentUri r missingPath
        = ⟨Severity.error, DiagKind.linkedTemplateNotFound,
           "Could not find linked template file \"" ++ missingPath ++ "\"", parentUri, r⟩
    ∧ ∀ d ∈ (traverse fs hpf (fuel + 1) parentUri doc).1, d.docUri ≠ missingPath := by
  refine ⟨?_, rfl, ?_⟩
  · unfold traverse
    rw [hrefs, traverseRefs_succ, List.map_append, combineResults_append, List.map_cons,
      combineResults_cons,
      handleRef_not_found fs hpf fuel parentUri _ missingPath rfl hfs,
      traverseRefs_succ, traverseRefs_succ]
    simp
  · intro d hd hdeq
    rcases traverseRefs_mem_docUri fs hpf (fuel + 1) parentUri doc.refs d hd with h1 | ⟨c, hc⟩
    · exact hroot (by rw [← h1, hdeq])
    · rw [hdeq, hfs] at hc
      exact Option.noConfusion hc

/-- Concrete parent document for the C4 witness: one reference to a
missing child. -/
def c4doc : TemplateDoc := ⟨[], [⟨⟨7, 8⟩, some "missing.json", []⟩]⟩

/-- Witness for C4 on a file system without the referenced child. -/
theorem c4_linked_template_not_found_witness :
    ((traverse (fun _ => none) (fun _ => true) (0 + 1) "root.json" c4doc).1
      = [linkedTemplateNotFoundDiag "root.json" ⟨7, 8⟩ "missing.json"])
    ∧ ∀ d ∈ (traverse (fun _ => none) (fun _ => true) (0 + 1) "root.json" c4doc).1,
        d.docUri ≠ "missing.json" := by
  have h := c4_linked_template_not_found (fun _ => none) (fun _ => true) 0 "root.json" c4doc
    [] [] ⟨7, 8⟩ "missing.json" [] rfl rfl (by decide)
  exact ⟨h.1, h.2.2⟩

/-- C5: every document the traversal records as expanded has an
associated parameter file, so a child discovered without one is never
recursed into; and conversely a referenced child that is present in the
file system and has an associated parameter file is expanded. -/
theorem c5_expansion_requires_parameter_file (fs : String → Option TemplateDoc)
    (hpf : String → Bool) (fuel : Nat) (u : String) (doc : TemplateDoc) :
    (∀ p ∈ (traverse fs hpf fuel u doc).2, hpf p = true)
    ∧ ∀ (r : SourceRange) (cp : String) (passed : List PassedParameter) (child : TemplateDoc),
        (⟨r, some cp, passed⟩ : RefOccurrence) ∈ doc.refs →
        fs cp = some child → hpf cp = true →
        cp ∈ (traverse fs hpf (fuel + 1) u doc).2 := by
  constructor
  · intro p hp
    exact traverseRefs_mem_expanded fs hpf fuel u doc.refs p hp
  · intro r cp passed child hmem hfs hp
    exact traverseRefs_expands fs hpf fuel u doc.refs r cp passed child hmem hfs hp

/-- Concrete grandchild document for the C5 witness. -/
def c5childTwoDoc : TemplateDoc := ⟨[⟨"p2", "int", false⟩], []⟩

/-- Concrete middle document for the C5 witness: child1 references
child2. -/
def c5childOneDoc : TemplateDoc := ⟨[], [⟨⟨3, 4⟩, some "child2.json", []⟩]⟩

/-- Concrete root document for the C5 witness: the root references
child1. -/
def c5rootDoc : TemplateDoc := ⟨[], [⟨⟨1, 2⟩, some "child1.json", []⟩]⟩

/-- Concrete file system for the C5 witness. -/
def c5fs : String → Option TemplateDoc := fun p =>
  if p == "child1.json" then some c5childOneDoc
  else if p == "child2.json" then some c5childTwoDoc
  else none

/-- Concrete parameter-file association for the C5 witness: only the
root and child1 have parameter files. -/
def c5hpf : String → Bool := fun p => p == "child1.json" || p == "root.json"

/-- Witness for C5 at the concrete two-level tree: child1 is expanded
and has a parameter file, while child2, reached without one, is not
expanded. -/
theorem c5_expansion_requires_parameter_file_witness :
    "child1.json" ∈ (traverse c5fs c5hpf (2 + 1) "root.json" c5rootDoc).2
    ∧ c5hpf "child1.json" = true
    ∧ "child2.json" ∉ (traverse c5fs c5hpf (2 + 1) "root.json" c5rootDoc).2 := by
  have h := c5_expansion_requires_parameter_file c5fs c5hpf 2 "root.json" c5rootDoc
  have h3 := c5_expansion_requires_parameter_file c5fs c5hpf 3 "root.json" c5rootDoc
  have hb := h.2 ⟨1, 2⟩ "child1.json" [] c5childOneDoc (by decide) (by decide) (by decide)
  exact ⟨hb, h3.1 "child1.json" hb, by decide⟩

end ArmTools
